import Mathlib

/-!
Verification of the Internal_Audit classification-and-aggregation engine.

The definitions below are a shallow embedding of the Python source:
  * `parse_amount`      embeds `parse_amount` of `notes/data_extraction.py`
  * `parse_amount_tm`   embeds `parse_amount` of `test_mapping.py`
  * `safe_float`        embeds `EnhancedBalanceSheetGenerator.safe_float`
  * `classify_account`  embeds `classify_account` of `test_mapping.py`
  * `extract_trial_balance_data` embeds the row loop of the same file
  * `calculate_note`    embeds `calculate_note` of `main2.py`
  * `classify_accounts_by_note` embeds the method of `note_temp_llm2.py`
  * `calculate_totals`  embeds `EnhancedBalanceSheetGenerator.calculate_totals`
Decimal amounts are represented exactly as rationals.  The numeric value
of a parsed token is computed first as a scaled integer `(n, k)` standing
for `n / 10 ^ k` and converted to the rational at the end, so the parse
itself stays kernel-computable.  Fallible parses are Option-valued; the
Python try/except blocks become matches on the Option.
-/

/-- The apostrophe character, built from its code point so that category
names from the source (for example the shareholders-funds section) can be
written without a literal apostrophe. -/
def apos : Char := Char.ofNat 39

/-- Whitespace in the sense of the Python `str.strip` / regex `\s`
(ASCII fragment): space, tab, newline, carriage return, form feed,
vertical tab. -/
def pyIsSpace (c : Char) : Bool :=
  c = ' ' || c = '\t' || c = '\n' || c = '\r' || c = '\x0c' || c = '\x0b'

/-- Python `str.strip()`: drop whitespace from both ends. -/
def pyStrip (s : String) : String :=
  String.mk (((s.data.dropWhile pyIsSpace).reverse.dropWhile pyIsSpace).reverse)

/-- Python `str.lower()` (ASCII fragment, as exercised by the code). -/
def pyLower (s : String) : String :=
  String.mk (s.data.map Char.toLower)

/-- Does the character list start with the given pattern? -/
def charsStartWith : List Char → List Char → Bool
  | [], _ => true
  | _ :: _, [] => false
  | p :: ps, c :: cs => p = c && charsStartWith ps cs

/-- Does the character list contain the pattern as a contiguous run?
This is the Python substring test `pat in hay`. -/
def charsContain : List Char → List Char → Bool
  | pat, [] => pat.isEmpty
  | pat, c :: cs => charsStartWith pat (c :: cs) || charsContain pat cs

/-- Python `pat in hay` for strings (substring containment). -/
def strContains (hay pat : String) : Bool :=
  charsContain pat.data hay.data

/-- Python `hay.endswith(pat)`. -/
def strEndsWith (hay pat : String) : Bool :=
  charsStartWith pat.data.reverse hay.data.reverse

/-- Helper for `pyWords`: split a character list at whitespace,
carrying the (reversed) current word. -/
def splitWordsAux : List Char → List Char → List String
  | acc, [] => if acc.isEmpty then [] else [String.mk acc.reverse]
  | acc, c :: cs =>
    if pyIsSpace c then
      if acc.isEmpty then splitWordsAux [] cs
      else String.mk acc.reverse :: splitWordsAux [] cs
    else splitWordsAux (c :: acc) cs

/-- Python `s.split()`: whitespace-separated words, empties dropped. -/
def pyWords (s : String) : List String :=
  splitWordsAux [] s.data

/-- Remove every occurrence of the given characters, as in chained Python
`str.replace(ch, ...)` calls with empty replacement. -/
def removeChars (s : String) (bad : List Char) : String :=
  String.mk (s.data.filter (fun c => !bad.contains c))

/-- Python `str.isdigit()` (ASCII fragment): nonempty and all digits. -/
def pyIsDigitStr (s : String) : Bool :=
  !s.data.isEmpty && s.data.all Char.isDigit

/-- Numeric value of a digit run, most significant first. -/
def digitsToNat (ds : List Char) : Nat :=
  ds.foldl (fun n c => 10 * n + (c.toNat - 48)) 0

/-- Rational value of a scaled integer: `(n, k)` stands for `n / 10 ^ k`. -/
def ratOfScaled (p : Int × Nat) : ℚ :=
  (p.1 : ℚ) / 10 ^ p.2

/-- Fold an exponent into a scaled integer: `(n, f)` times `10 ^ e`,
where the exponent is `eAbs` negated when `negE` is set. -/
def applyExp (n : Int) (f : Nat) (negE : Bool) (eAbs : Nat) : Int × Nat :=
  if negE then (n, f + eAbs)
  else if eAbs ≤ f then (n, f - eAbs)
  else (n * 10 ^ (eAbs - f), 0)

/-- Parse the exponent suffix of a Python float literal: either nothing,
or `e`/`E`, an optional sign and at least one digit, ending the token.
Returns the exponent as a sign flag and magnitude. -/
def parseExpTail : List Char → Option (Bool × Nat)
  | [] => some (false, 0)
  | c :: t =>
    if c = 'e' || c = 'E' then
      let signAndRest : Bool × List Char :=
        match t with
        | '+' :: u => (false, u)
        | '-' :: u => (true, u)
        | _ => (false, t)
      let ed := signAndRest.2.takeWhile Char.isDigit
      let rest := signAndRest.2.dropWhile Char.isDigit
      if ed.isEmpty || !rest.isEmpty then none
      else some (signAndRest.1, digitsToNat ed)
    else none

/-- Model of the Python built-in `float(s)` on the numeric-literal
fragment, producing a scaled integer: optional sign, digits with an
optional point, optional exponent.  `inf`, `nan` and grouping
underscores are not modelled; no input reaching this parser in the
embedded code contains them.  Returns `none` where Python raises
`ValueError`. -/
def pyFloatScaled? (s : String) : Option (Int × Nat) :=
  let signAndRest : Int × List Char :=
    match s.data with
    | '+' :: t => (1, t)
    | '-' :: t => (-1, t)
    | _ => (1, s.data)
  let ip := signAndRest.2.takeWhile Char.isDigit
  let r1 := signAndRest.2.dropWhile Char.isDigit
  let fracAndRest : List Char × List Char :=
    match r1 with
    | '.' :: t => (t.takeWhile Char.isDigit, t.dropWhile Char.isDigit)
    | _ => ([], r1)
  if ip.isEmpty && fracAndRest.1.isEmpty then none
  else
    match parseExpTail fracAndRest.2 with
    | none => none
    | some e =>
      some (applyExp (signAndRest.1 * (digitsToNat (ip ++ fracAndRest.1) : Int))
        fracAndRest.1.length e.1 e.2)

/-- Python `float(s)` as a rational. -/
def pyFloat? (s : String) : Option ℚ :=
  (pyFloatScaled? s).map ratOfScaled

/-- The character filter of `parse_amount`: `re.sub(r'[^\d\.\-\+]', '', s)`
keeps only digits, the point and the signs. -/
def amountKeptChars (s : String) : String :=
  String.mk (s.data.filter (fun c => c.isDigit || c = '.' || c = '-' || c = '+'))

/-- The token `parse_amount` actually tries to parse: the input stripped
and reduced to digit/point/sign characters. -/
def cleanedToken (s : String) : String :=
  amountKeptChars (pyStrip s)

/-- Embeds `parse_amount` of `notes/data_extraction.py`.  `none` models a
`NaN` cell (`pd.isna`).  The credit marker is a case-insensitive `cr`
suffix of the stripped input. -/
def parse_amount (x : Option String) : ℚ :=
  match x with
  | none => 0
  | some s0 =>
    if s0 = "" then 0
    else
      let is_credit := strEndsWith (pyLower (pyStrip s0)) "cr"
      let cleaned := cleanedToken s0
      if cleaned = "" || cleaned = "-" || cleaned = "+" then 0
      else
        match pyFloat? cleaned with
        | none => 0
        | some a => if is_credit && a > 0 then -a else a

/-- Python regex word character `\w` (ASCII fragment). -/
def isWordChar (c : Char) : Bool :=
  c.isAlphanum || c = '_'

/-- Is `cr` at the head of the list with a word boundary after it? -/
def crAt : List Char → Bool
  | 'c' :: 'r' :: rest =>
    match rest with
    | [] => true
    | c :: _ => !isWordChar c
  | _ => false

/-- Scan for `\bcr\b`, carrying whether the previous character was a word
character (so the left boundary can be checked). -/
def hasCRFrom : Bool → List Char → Bool
  | _, [] => false
  | prevW, c :: rest => (!prevW && crAt (c :: rest)) || hasCRFrom (isWordChar c) rest

/-- `re.search(r'\bcr\b', s, re.IGNORECASE)` as used by `test_mapping.py`. -/
def hasWordCR (s : String) : Bool :=
  hasCRFrom false (pyLower s).data

/-- Embeds `parse_amount` of `test_mapping.py`; it differs from the
`data_extraction` variant only in detecting the credit marker with the
regex `\bcr\b` instead of a `cr` suffix (the debit flag it computes is
never used). -/
def parse_amount_tm (x : Option String) : ℚ :=
  match x with
  | none => 0
  | some s0 =>
    if s0 = "" then 0
    else
      let is_credit := hasWordCR (pyStrip s0)
      let cleaned := cleanedToken s0
      if cleaned = "" || cleaned = "-" || cleaned = "+" then 0
      else
        match pyFloat? cleaned with
        | none => 0
        | some a => if is_credit && a > 0 then -a else a

/-- The characters removed by `safe_float`: the class
`[â‚¹,Rs\.\s\(\)]` of the source (the first three characters are the
bytes of a mis-decoded rupee sign, exactly as they appear in the file),
together with regex whitespace.  Note that the class removes the decimal
point. -/
def safeFloatStripped (c : Char) : Bool :=
  c = 'â' || c = '‚' || c = '¹' || c = ',' || c = 'R' || c = 's' ||
    c = '.' || c = '(' || c = ')' || pyIsSpace c

/-- The error-sentinel list of `safe_float`. -/
def safeFloatSentinels : List String :=
  ["-", "--", "None", "", "null"]

/-- The token `safe_float` tries to parse: the input with the character
class removed, and a minus sign prepended when the original value is
wrapped in parentheses (the inner `replace` calls on the parentheses are
kept even though the class already removed them). -/
def safeFloatToken (value : String) : String :=
  let cleaned := String.mk (value.data.filter (fun c => !safeFloatStripped c))
  if value.data.contains '(' && value.data.contains ')' then
    String.mk ('-' :: cleaned.data.filter (fun c => !(c = '(' || c = ')')))
  else cleaned

/-- Embeds `EnhancedBalanceSheetGenerator.safe_float` on string inputs
(the numeric branch of the Python function is just `float(value)`). -/
def safe_float (value : String) : ℚ :=
  if value = "" || safeFloatSentinels.contains (pyStrip value) then 0
  else
    match pyFloat? (safeFloatToken value) with
    | none => 0
    | some a => a


/-- Dict lookup `exact_mappings[account_name]` guarded by
`account_name in exact_mappings` (case-preserving).  Python dicts keep
insertion order, so an association list is a faithful model. -/
def lookupExact (em : List (String × String)) (name : String) : Option String :=
  (em.find? (fun p => p.1 == name)).map Prod.snd

/-- The stripped, lower-cased account name (`account_name_clean`). -/
def cleanName (name : String) : String :=
  pyLower (pyStrip name)

/-- The case-insensitive scan over `exact_mappings.items()`: first entry
whose lower-cased key equals the cleaned account name. -/
def findCaseInsensitive (em : List (String × String)) (clean : String) : Option String :=
  (em.find? (fun p => pyLower p.1 == clean)).map Prod.snd

/-- The test `keyword.lower() in account_name_clean.split()` over all
keywords of one rule: a keyword matches when it equals one of the
whitespace-separated words of the cleaned name. -/
def keywordHit (clean : String) (keywords : List String) : Bool :=
  keywords.any (fun kw => (pyWords clean).contains (pyLower kw))

/-- The keyword-rule loop: first group (in configured order) one of whose
keywords hits. -/
def findKeyword (clean : String) (kr : List (String × List String)) : Option String :=
  (kr.find? (fun p => keywordHit clean p.2)).map Prod.fst

/-- The exact-map tier as a whole: case-preserving lookup, then the
case-insensitive scan. -/
def exactTier (name : String) (em : List (String × String)) : Option String :=
  match lookupExact em name with
  | some g => some g
  | none => findCaseInsensitive em (cleanName name)

/-- Embeds `classify_account` of `test_mapping.py`.  The regex smart-rule
tier (`re.search` over `get_smart_rules()`) is modelled as the matcher
parameter `smart_rules` applied to the cleaned name, and the external
LLM call as `api_key` (is the key configured?) plus the oracle `llm`
applied to the raw name, where `none` stands for any transport error,
timeout or malformed response (the except branch).  Returns
`(group, mapped_by)`. -/
def classify_account (account_name : String) (em : List (String × String))
    (kr : List (String × List String)) (smart_rules : String → Option String)
    (api_key : Bool) (llm : String → Option String) : String × String :=
  let clean := cleanName account_name
  match lookupExact em account_name with
  | some g => (g, "mapping.json")
  | none =>
    match findCaseInsensitive em clean with
    | some g => (g, "mapping.json")
    | none =>
      match findKeyword clean kr with
      | some g => (g, "rules.json")
      | none =>
        match smart_rules clean with
        | some g => (g, "smart_rules")
        | none =>
          if api_key then
            match llm account_name with
            | some s => (s, "llm_fallback")
            | none => ("Unmapped", "Unmapped")
          else ("Unmapped", "Unmapped")

/-- Number of external-classifier requests one `classify_account` call
issues: one exactly when every local tier misses and the API key is
configured (the request is attempted even when it then fails). -/
def classify_llm_calls (account_name : String) (em : List (String × String))
    (kr : List (String × List String)) (smart_rules : String → Option String)
    (api_key : Bool) : Nat :=
  let clean := cleanName account_name
  match lookupExact em account_name with
  | some _ => 0
  | none =>
    match findCaseInsensitive em clean with
    | some _ => 0
    | none =>
      match findKeyword clean kr with
      | some _ => 0
      | none =>
        match smart_rules clean with
        | some _ => 0
        | none => if api_key then 1 else 0

/-- One row of the `calculate_note` trial-balance frame of `main2.py`. -/
structure NoteRow where
  account_name : String
  amount : String
  group : String
deriving DecidableEq

/-- Embeds `clean_value` of `main2.py` on string cells: drop commas,
strip, parse as float, defaulting to `0.0` for empty or unparsable
values. -/
def clean_value (v : String) : ℚ :=
  let s := pyStrip (removeChars v [','])
  if s = "" then 0
  else
    match pyFloat? s with
    | none => 0
    | some a => a

/-- Embeds `calculate_note` of `main2.py` (without the optional
`special_breakdown` post-pass, which is independent of the matching
loop): returns the total and the matched-accounts list.  The Python
`exclude=None` default behaves exactly like the empty list. -/
def calculate_note (tb : List NoteRow) (keywords : List String)
    (exclude : List String) : ℚ × List (String × ℚ × String) :=
  tb.foldl
    (fun acc row =>
      let name := pyLower (pyStrip row.account_name)
      if keywords.any (fun kw => strContains name (pyLower kw)) &&
          (exclude.isEmpty || !exclude.any (fun ex => strContains name (pyLower ex))) then
        (acc.1 + clean_value row.amount,
          acc.2 ++ [(row.account_name, clean_value row.amount, row.group)])
      else acc)
    (0, [])

/-- One account record as seen by `classify_accounts_by_note`. -/
structure NoteAccount where
  account_name : String
  group : String
deriving DecidableEq

/-- Embeds `classify_accounts_by_note` of `note_temp_llm2.py`: an account
is kept when no exclude keyword occurs in its lower-cased name and a
keyword occurs in it or its group is listed. -/
def classify_accounts_by_note (accounts : List NoteAccount)
    (keywords groups exclude_keywords : List String) : List NoteAccount :=
  accounts.filter
    (fun a =>
      let name := pyLower a.account_name
      if exclude_keywords.any (fun w => strContains name (pyLower w)) then false
      else keywords.any (fun k => strContains name (pyLower k)) || groups.contains a.group)

/-- One structured record produced by `extract_trial_balance_data`. -/
structure TBRecord where
  account_name : String
  group : String
  amount : ℚ
  mapped_by : String
  source_file : String
deriving DecidableEq

/-- The account-name validation of the row loop: `None`/blank rows are
skipped, the name is stripped, and names of at most two characters or
that are purely digits once `.` and `-` are removed are skipped.  A cell
is `none` when `pd.isna` holds for it; an empty row has no first cell. -/
def rowAccountName? : List (Option String) → Option String
  | [] => none
  | none :: _ => none
  | some raw :: _ =>
    if pyStrip raw = "" then none
    else
      let name := pyStrip raw
      if name.length ≤ 2 || pyIsDigitStr (removeChars name ['.', '-']) then none
      else some name

/-- The amount logic of the row loop of `test_mapping.py`: column 3 when
present and not `NaN`, otherwise debit minus credit from columns 1 and 2
when the row has more than two cells, otherwise `0.0`. -/
def amountOfRow (row : List (Option String)) : ℚ :=
  if 3 < row.length && (row.getD 3 none).isSome then parse_amount_tm (row.getD 3 none)
  else if 2 < row.length then
    parse_amount_tm (row.getD 1 none) - parse_amount_tm (row.getD 2 none)
  else 0

/-- One iteration of the row loop: skip or build the structured record. -/
def processRow (em : List (String × String)) (kr : List (String × List String))
    (smart_rules : String → Option String) (api_key : Bool)
    (llm : String → Option String) (source_file : String)
    (row : List (Option String)) : Option TBRecord :=
  (rowAccountName? row).map fun name =>
    let amount := amountOfRow row
    let gm := classify_account name em kr smart_rules api_key llm
    ⟨name, gm.1, amount, gm.2, source_file⟩

/-- Embeds the row loop of `extract_trial_balance_data` of
`test_mapping.py` on an already-loaded sheet (a list of rows of optional
cells; reading the Excel file itself is outside the engine). -/
def extract_trial_balance_data (em : List (String × String))
    (kr : List (String × List String)) (smart_rules : String → Option String)
    (api_key : Bool) (llm : String → Option String) (source_file : String)
    (rows : List (List (Option String))) : List TBRecord :=
  rows.filterMap (processRow em kr smart_rules api_key llm source_file)

/-- External-classifier requests issued while processing one row. -/
def rowLLMCalls (em : List (String × String)) (kr : List (String × List String))
    (smart_rules : String → Option String) (api_key : Bool)
    (row : List (Option String)) : Nat :=
  match rowAccountName? row with
  | none => 0
  | some name => classify_llm_calls name em kr smart_rules api_key

/-- External-classifier requests issued during one whole extraction run. -/
def extract_llm_calls (em : List (String × String))
    (kr : List (String × List String)) (smart_rules : String → Option String)
    (api_key : Bool) (rows : List (List (Option String))) : Nat :=
  (rows.map (rowLLMCalls em kr smart_rules api_key)).sum

/-- One balance-sheet line item (`BalanceSheetItem` of
`bs/balance_sheet_generator.py`). -/
structure BalanceSheetItem where
  category : String
  subcategory : String
  name : String
  note : String
  value_2024 : ℚ
  value_2023 : ℚ
deriving DecidableEq

/-- The totals record (`BalanceSheetTotals` of the same file). -/
structure BalanceSheetTotals where
  shareholders_funds_2024 : ℚ
  shareholders_funds_2023 : ℚ
  share_application_money_2024 : ℚ
  share_application_money_2023 : ℚ
  non_current_liabilities_2024 : ℚ
  non_current_liabilities_2023 : ℚ
  current_liabilities_2024 : ℚ
  current_liabilities_2023 : ℚ
  non_current_assets_2024 : ℚ
  non_current_assets_2023 : ℚ
  current_assets_2024 : ℚ
  current_assets_2023 : ℚ
  total_equity_liabilities_2024 : ℚ
  total_equity_liabilities_2023 : ℚ
  total_assets_2024 : ℚ
  total_assets_2023 : ℚ
  balance_difference_2024 : ℚ
  balance_difference_2023 : ℚ
deriving DecidableEq

/-- The template category key for the shareholders-funds section
(spelled with an apostrophe in the source). -/
def catShareholdersFunds : String :=
  "Shareholders" ++ String.singleton apos ++ " funds"

/-- Template category key. -/
def catShareApplication : String := "Share application money pending allotment"

/-- Template category key. -/
def catNonCurrentLiabilities : String := "Non-Current liabilities"

/-- Template category key. -/
def catCurrentLiabilities : String := "Current liabilities"

/-- Template category key. -/
def catNonCurrentAssets : String := "Non-current assets"

/-- Template category key. -/
def catCurrentAssets : String := "Current assets"

/-- One step of the grouping loop of `calculate_totals`: add the item
values into the (association-list model of the) category dictionary,
creating the entry at `0` on first use. -/
def addItemToCategories (cats : List (String × ℚ × ℚ)) (it : BalanceSheetItem) :
    List (String × ℚ × ℚ) :=
  match cats with
  | [] => [(it.category, it.value_2024, it.value_2023)]
  | p :: rest =>
    if p.1 = it.category then (p.1, p.2.1 + it.value_2024, p.2.2 + it.value_2023) :: rest
    else p :: addItemToCategories rest it

/-- The `categories` dictionary built by the grouping loop. -/
def categoriesOf (items : List BalanceSheetItem) : List (String × ℚ × ℚ) :=
  items.foldl addItemToCategories []

/-- `categories.get(cat, {}).get(year, 0)` for both years at once. -/
def getCat (cats : List (String × ℚ × ℚ)) (c : String) : ℚ × ℚ :=
  match cats.find? (fun p => p.1 == c) with
  | some p => p.2
  | none => (0, 0)

/-- Python `abs` on the embedded decimals. -/
def pyAbs (q : ℚ) : ℚ :=
  if q < 0 then -q else q

/-- Embeds `EnhancedBalanceSheetGenerator.calculate_totals`. -/
def calculate_totals (items : List BalanceSheetItem) : BalanceSheetTotals :=
  let cats := categoriesOf items
  let sf := getCat cats catShareholdersFunds
  let sam := getCat cats catShareApplication
  let ncl := getCat cats catNonCurrentLiabilities
  let cl := getCat cats catCurrentLiabilities
  let nca := getCat cats catNonCurrentAssets
  let ca := getCat cats catCurrentAssets
  let tel24 := sf.1 + sam.1 + ncl.1 + cl.1
  let tel23 := sf.2 + sam.2 + ncl.2 + cl.2
  let ta24 := nca.1 + ca.1
  let ta23 := nca.2 + ca.2
  { shareholders_funds_2024 := sf.1
    shareholders_funds_2023 := sf.2
    share_application_money_2024 := sam.1
    share_application_money_2023 := sam.2
    non_current_liabilities_2024 := ncl.1
    non_current_liabilities_2023 := ncl.2
    current_liabilities_2024 := cl.1
    current_liabilities_2023 := cl.2
    non_current_assets_2024 := nca.1
    non_current_assets_2023 := nca.2
    current_assets_2024 := ca.1
    current_assets_2023 := ca.2
    total_equity_liabilities_2024 := tel24
    total_equity_liabilities_2023 := tel23
    total_assets_2024 := ta24
    total_assets_2023 := ta23
    balance_difference_2024 := pyAbs (ta24 - tel24)
    balance_difference_2023 := pyAbs (ta23 - tel23) }

/-- The balance check of `process` for the current period:
`totals.balance_difference_2024 < 0.01`. -/
def is_balanced_2024 (t : BalanceSheetTotals) : Prop :=
  t.balance_difference_2024 < 0.01

/-- The balance check of `process` for the prior period. -/
def is_balanced_2023 (t : BalanceSheetTotals) : Prop :=
  t.balance_difference_2023 < 0.01

/-- Sum of the current-period values of the items of one category. -/
def catSum24 (items : List BalanceSheetItem) (c : String) : ℚ :=
  ((items.filter (fun it => it.category == c)).map BalanceSheetItem.value_2024).sum

/-- Sum of the prior-period values of the items of one category. -/
def catSum23 (items : List BalanceSheetItem) (c : String) : ℚ :=
  ((items.filter (fun it => it.category == c)).map BalanceSheetItem.value_2023).sum

/-- Claim C4 (code evaluation): at the parenthesised token of the spec,
the balance-sheet normalizer returns `-123456` because its character
class also strips the decimal point, and the trial-balance normalizer
returns `+1234.56` because it drops the parentheses without negating;
neither returns the claimed `-1234.56`. -/
theorem c4_paren_negation_eval :
    safe_float "(1,234.56)" = -123456 ∧
    parse_amount_tm (some "(1,234.56)") = 1234.56 ∧
    safe_float "(1,234.56)" ≠ -1234.56 ∧
    parse_amount_tm (some "(1,234.56)") ≠ -1234.56 := by
  have htok : safeFloatToken "(1,234.56)" = "-123456" := by decide
  have hp1 : pyFloatScaled? "-123456" = some (-123456, 0) := by decide
  have hq1 : pyFloat? "-123456" = some (ratOfScaled (-123456, 0)) := by
    rw [pyFloat?, hp1]; rfl
  have hsf : safe_float "(1,234.56)" = ratOfScaled (-123456, 0) := by
    rw [safe_float, if_neg (by decide), htok, hq1]
  have hct : cleanedToken "(1,234.56)" = "1234.56" := by decide
  have hp2 : pyFloatScaled? "1234.56" = some (123456, 2) := by decide
  have hq2 : pyFloat? "1234.56" = some (ratOfScaled (123456, 2)) := by
    rw [pyFloat?, hp2]; rfl
  have hcr : hasWordCR (pyStrip "(1,234.56)") = false := by decide
  have hpa : parse_amount_tm (some "(1,234.56)") = ratOfScaled (123456, 2) := by
    rw [parse_amount_tm]
    rw [if_neg (by decide)]
    simp only [hct, hcr, hq2]
    rw [if_neg (by decide)]
    simp
  refine ⟨?_, ?_, ?_, ?_⟩
  · rw [hsf]; norm_num [ratOfScaled]
  · rw [hpa]; norm_num [ratOfScaled]
  · rw [hsf]; norm_num [ratOfScaled]
  · rw [hpa]; norm_num [ratOfScaled]

/-- Claim C5: the normalizer is a total function (it never raises); when
the cleaned token is empty, a lone sign or a lone decimal point it
returns `0.0`, and at the spec instances (the empty string and the
divide-by-zero sentinel) both normalizers return `0.0`. -/
theorem c5_normalizer_zero_defaults :
    (∀ s : String,
        cleanedToken s = "" ∨ cleanedToken s = "-" ∨ cleanedToken s = "+" ∨
            cleanedToken s = "." →
          parse_amount (some s) = 0) ∧
    parse_amount none = 0 ∧
    parse_amount (some "") = 0 ∧
    parse_amount (some "#DIV/0!") = 0 ∧
    safe_float "" = 0 ∧
    safe_float "#DIV/0!" = 0 ∧
    safe_float "." = 0 ∧
    safe_float "-" = 0 := by
  refine ⟨?_, rfl, by rw [parse_amount]; simp, ?_, by rw [safe_float]; simp, ?_, ?_, ?_⟩
  · intro s h
    by_cases hs : s = ""
    · rw [parse_amount, if_pos hs]
    · rw [parse_amount, if_neg hs]
      rcases h with h | h | h | h
      · rw [h]; simp
      · rw [h]; simp
      · rw [h]; simp
      · rw [h]
        rw [if_neg (by decide)]
        have : pyFloat? "." = none := by
          rw [pyFloat?, show pyFloatScaled? "." = none from by decide]; rfl
        rw [this]
  · have hct : cleanedToken "#DIV/0!" = "0" := by decide
    have hq : pyFloat? "0" = some (ratOfScaled (0, 0)) := by
      rw [pyFloat?, show pyFloatScaled? "0" = some (0, 0) from by decide]; rfl
    rw [parse_amount]
    rw [if_neg (by decide)]
    simp only [hct, hq]
    rw [if_neg (by decide)]
    have : strEndsWith (pyLower (pyStrip "#DIV/0!")) "cr" = false := by decide
    simp only [this, Bool.false_and, if_neg]
    norm_num [ratOfScaled]
  · rw [safe_float, if_neg (by decide)]
    rw [show safeFloatToken "#DIV/0!" = "#DIV/0!" from by decide]
    rw [show pyFloat? "#DIV/0!" = none from by
      rw [pyFloat?, show pyFloatScaled? "#DIV/0!" = none from by decide]; rfl]
  · rw [safe_float, if_neg (by decide)]
    rw [show safeFloatToken "." = "" from by decide]
    rw [show pyFloat? "" = none from by
      rw [pyFloat?, show pyFloatScaled? "" = none from by decide]; rfl]
  · rw [safe_float, if_pos (by decide)]

/-- Witness for C5: a concrete input whose cleaned token is empty is
normalized to `0.0`. -/
theorem c5_normalizer_zero_defaults_witness :
    cleanedToken "xyz" = "" ∧ parse_amount (some "xyz") = 0 :=
  ⟨by decide, c5_normalizer_zero_defaults.1 "xyz" (Or.inl (by decide))⟩

/-- Claim C3: when the exact-map tier resolves an account name
(case-preserving, or else case-insensitively), `classify_account`
returns that entry with method `mapping.json`, and the result does not
depend on the keyword rules, the smart rules or the external classifier
at all, even when they would also match. -/
theorem c3_exact_map_precedence :
    ∀ (name g : String) (em : List (String × String))
      (kr kr' : List (String × List String)) (sr sr' : String → Option String)
      (ak ak' : Bool) (llm llm' : String → Option String),
      exactTier name em = some g →
      classify_account name em kr sr ak llm = (g, "mapping.json") ∧
        classify_account name em kr sr ak llm = classify_account name em kr' sr' ak' llm' := by
  intro name g em kr kr' sr sr' ak ak' llm llm' h
  cases hx : lookupExact em name with
  | some g0 =>
    simp only [exactTier, hx] at h
    cases h
    constructor
    · simp only [classify_account, hx]
    · simp only [classify_account, hx]
  | none =>
    simp only [exactTier, hx] at h
    constructor
    · simp only [classify_account, hx, h]
    · simp only [classify_account, hx, h]

/-- Witness for C3: an account name carried by the exact map and also hit
by a keyword rule is classified by the exact map, with the same result
under a completely different rule configuration. -/
theorem c3_exact_map_precedence_witness :
    keywordHit (cleanName "Cash In Hand") ["cash"] = true ∧
    classify_account "Cash In Hand" [("Cash In Hand", "Cash and Cash Equivalents")]
        [("Trade Receivables", ["cash"])] (fun _ => some "Inventories") true
        (fun _ => some "Equity") = ("Cash and Cash Equivalents", "mapping.json") ∧
    classify_account "Cash In Hand" [("Cash In Hand", "Cash and Cash Equivalents")]
        [("Trade Receivables", ["cash"])] (fun _ => some "Inventories") true
        (fun _ => some "Equity") =
      classify_account "Cash In Hand" [("Cash In Hand", "Cash and Cash Equivalents")]
        [] (fun _ => none) false (fun _ => none) := by
  have h := c3_exact_map_precedence "Cash In Hand" "Cash and Cash Equivalents"
    [("Cash In Hand", "Cash and Cash Equivalents")] [("Trade Receivables", ["cash"])] []
    (fun _ => some "Inventories") (fun _ => none) true false (fun _ => some "Equity")
    (fun _ => none) (by decide)
  exact ⟨by decide, h.1, h.2⟩

/-- Claim C6 (counterexample): the configured multi-word keyword
`share capital` does not match the account name `Share Capital`, because
the keyword tier tests membership of the lower-cased keyword in the
whitespace-split word list of the name; classification falls through to
`Unmapped` instead of returning the rule group. -/
theorem c6_multiword_keyword_counterexample :
    keywordHit (cleanName "Share Capital") ["share capital"] = false ∧
    findKeyword (cleanName "Share Capital") [("Equity Share Capital", ["share capital"])] =
      none ∧
    classify_account "Share Capital" [] [("Equity Share Capital", ["share capital"])]
        (fun _ => none) false (fun _ => none) = ("Unmapped", "Unmapped") ∧
    classify_account "Share Capital" [] [("Equity Share Capital", ["share capital"])]
        (fun _ => none) false (fun _ => none) ≠ ("Equity Share Capital", "rules.json") := by
  refine ⟨by decide, by decide, by decide, by decide⟩

/-- Claim C6 (amended): the keyword tier matches an account name iff some
configured keyword, lower-cased, equals one of the whitespace-separated
words of the cleaned name; consequently a keyword containing a space
(such as `share capital`) never matches any name. -/
theorem c6_keyword_word_equality :
    ∀ (clean : String) (kr : List (String × List String)),
      ((findKeyword clean kr).isSome = true ↔
          ∃ p ∈ kr, ∃ kw ∈ p.2, (pyWords clean).contains (pyLower kw) = true) ∧
      ∀ kw : String, kw.data.contains ' ' = true →
        (pyWords clean).contains kw = false := by
  have words_no_space :
      ∀ (cs acc : List Char), (∀ c ∈ acc, pyIsSpace c = false) →
        ∀ w ∈ splitWordsAux acc cs, ∀ c ∈ w.data, pyIsSpace c = false := by
    intro cs
    induction cs with
    | nil =>
      intro acc hacc w hw c hc
      simp only [splitWordsAux] at hw
      by_cases he : acc.isEmpty
      · simp [he] at hw
      · simp [he] at hw
        subst hw
        simp at hc
        exact hacc c hc
    | cons a as ih =>
      intro acc hacc w hw c hc
      simp only [splitWordsAux] at hw
      by_cases hs : pyIsSpace a
      · simp only [hs, if_true] at hw
        by_cases he : acc.isEmpty
        · simp only [he, if_true] at hw
          exact ih [] (by simp) w hw c hc
        · simp only [he, if_false] at hw
          rcases List.mem_cons.mp hw with h | h
          · subst h
            simp at hc
            exact hacc c hc
          · exact ih [] (by simp) w h c hc
      · simp only [hs, if_false] at hw
        refine ih (a :: acc) ?_ w hw c hc
        intro d hd
        rcases List.mem_cons.mp hd with h | h
        · subst h; simpa using hs
        · exact hacc d h
  intro clean kr
  constructor
  · simp only [findKeyword, Option.isSome_map', List.find?_isSome, keywordHit,
      List.any_eq_true]
  · intro kw hsp
    by_contra hmem
    rw [Bool.not_eq_false] at hmem
    have hkwmem : kw ∈ pyWords clean := by simpa using hmem
    have hspmem : ' ' ∈ kw.data := by simpa using hsp
    have hfalse : pyIsSpace ' ' = false :=
      words_no_space clean.data [] (by simp) kw (by simpa [pyWords] using hkwmem) ' ' hspmem
    simp [pyIsSpace] at hfalse

/-- Witness for C6 (amended): the multi-word keyword of the spec example
contains a space and therefore is not among the words of the cleaned
name `Share Capital`; the single-word keyword `capital` does match. -/
theorem c6_keyword_word_equality_witness :
    ("share capital").data.contains ' ' = true ∧
    (pyWords (cleanName "Share Capital")).contains "share capital" = false ∧
    ((findKeyword (cleanName "Share Capital") [("Equity Share Capital", ["capital"])]).isSome
      = true) :=
  ⟨by decide,
    (c6_keyword_word_equality (cleanName "Share Capital") []).2 "share capital" (by decide),
    (c6_keyword_word_equality (cleanName "Share Capital")
        [("Equity Share Capital", ["capital"])]).1.mpr
      ⟨("Equity Share Capital", ["capital"]), by simp, "capital", by simp, by decide⟩⟩

/-- Claim C8: when every local tier misses and the external classifier is
unconfigured (`ak = false`) or fails in any way (`llm name = none`, the
except branch), `classify_account` returns `Unmapped`/`Unmapped`; being
a total function, it never propagates an exception. -/
theorem c8_external_failure_unmapped :
    ∀ (name : String) (em : List (String × String)) (kr : List (String × List String))
      (sr : String → Option String) (ak : Bool) (llm : String → Option String),
      exactTier name em = none →
      findKeyword (cleanName name) kr = none →
      sr (cleanName name) = none →
      (ak = false ∨ llm name = none) →
      classify_account name em kr sr ak llm = ("Unmapped", "Unmapped") := by
  intro name em kr sr ak llm h1 h2 h3 h4
  cases hx : lookupExact em name with
  | some g0 =>
    simp only [exactTier, hx] at h1
    simp at h1
  | none =>
    simp only [exactTier, hx] at h1
    rcases h4 with h4 | h4
    · subst h4
      simp only [classify_account, hx, h1, h2, h3, if_neg]
      simp
    · simp only [classify_account, hx, h1, h2, h3, h4]
      cases ak <;> simp

/-- Witness for C8: a fabricated account name missing every tier, with
the key configured but the external call failing, is `Unmapped`. -/
theorem c8_external_failure_unmapped_witness :
    classify_account "Zzz Qqq" [] [] (fun _ => none) true (fun _ => none) =
      ("Unmapped", "Unmapped") :=
  c8_external_failure_unmapped "Zzz Qqq" [] [] (fun _ => none) true (fun _ => none)
    (by decide) (by decide) rfl (Or.inr rfl)

/-- Claim C9 (counterexample): a run over two rows bearing the same
unresolved account name issues two external-classifier calls, not one —
the code keeps no per-run memoization cache — although both rows do
receive the same classification. -/
theorem c9_duplicate_name_two_calls :
    extract_llm_calls [] [] (fun _ => none) true
        [[some "Zzzq Account", some "100", some "0"],
          [some "Zzzq Account", some "100", some "0"]] = 2 ∧
    extract_llm_calls [] [] (fun _ => none) true
        [[some "Zzzq Account", some "100", some "0"],
          [some "Zzzq Account", some "100", some "0"]] ≠ 1 ∧
    (extract_trial_balance_data [] [] (fun _ => none) true (fun _ => some "Current Asset")
          "tb.xlsx"
          [[some "Zzzq Account", some "100", some "0"],
            [some "Zzzq Account", some "100", some "0"]]).map
        (fun r => (r.group, r.mapped_by)) =
      [("Current Asset", "llm_fallback"), ("Current Asset", "llm_fallback")] := by
  refine ⟨by decide, by decide, ?_⟩
  rw [extract_trial_balance_data]
  rfl

/-- Claim C9 (amended): classifying the same unresolved account name
twice in one run triggers one external call per classification — two in
total, since nothing is memoized — and, the embedded classifier being a
pure function of its inputs, both classifications return the same group
and method. -/
theorem c9_no_memoization :
    ∀ (name : String) (em : List (String × String)) (kr : List (String × List String))
      (sr : String → Option String),
      exactTier name em = none →
      findKeyword (cleanName name) kr = none →
      sr (cleanName name) = none →
      classify_llm_calls name em kr sr true + classify_llm_calls name em kr sr true = 2 ∧
        ∀ llm : String → Option String,
          classify_account name em kr sr true llm = classify_account name em kr sr true llm := by
  intro name em kr sr h1 h2 h3
  cases hx : lookupExact em name with
  | some g0 =>
    simp only [exactTier, hx] at h1
    simp at h1
  | none =>
    simp only [exactTier, hx] at h1
    constructor
    · simp only [classify_llm_calls, hx, h1, h2, h3, if_true]
    · intro llm
      rfl

/-- Witness for C9 (amended): the fabricated unresolved name triggers one
external call in each of its two classifications. -/
theorem c9_no_memoization_witness :
    classify_llm_calls "Zzzq Account" [] [] (fun _ => none) true +
        classify_llm_calls "Zzzq Account" [] [] (fun _ => none) true = 2 :=
  (c9_no_memoization "Zzzq Account" [] [] (fun _ => none) (by decide) (by decide) rfl).1

/-- Claim C7: a rule whose keyword matches an account name contributes
nothing when an exclude substring is also present in the name — the row
adds nothing to the note total and does not appear among the matched
accounts of `calculate_note`, and the account is dropped by
`classify_accounts_by_note` even when a keyword or group would match. -/
theorem c7_exclude_suppresses_rule :
    (∀ (tb1 tb2 : List NoteRow) (row : NoteRow) (keywords exclude : List String),
        (∃ kw ∈ keywords,
          strContains (pyLower (pyStrip row.account_name)) (pyLower kw) = true) →
        (∃ ex ∈ exclude,
          strContains (pyLower (pyStrip row.account_name)) (pyLower ex) = true) →
        calculate_note (tb1 ++ row :: tb2) keywords exclude =
          calculate_note (tb1 ++ tb2) keywords exclude) ∧
    ∀ (l1 l2 : List NoteAccount) (a : NoteAccount) (kws groups excl : List String),
      (∃ kw ∈ kws, strContains (pyLower a.account_name) (pyLower kw) = true) →
      (∃ ex ∈ excl, strContains (pyLower a.account_name) (pyLower ex) = true) →
      classify_accounts_by_note (l1 ++ a :: l2) kws groups excl =
        classify_accounts_by_note (l1 ++ l2) kws groups excl := by
  constructor
  · intro tb1 tb2 row keywords exclude _ h2
    obtain ⟨ex, hexmem, hexc⟩ := h2
    have hany :
        exclude.any
            (fun e => strContains (pyLower (pyStrip row.account_name)) (pyLower e)) = true :=
      List.any_eq_true.mpr ⟨ex, hexmem, hexc⟩
    have hne : exclude.isEmpty = false := by
      cases exclude with
      | nil => simp at hexmem
      | cons e t => rfl
    rw [calculate_note, calculate_note, List.foldl_append, List.foldl_append,
      List.foldl_cons]
    have hstep :
        ∀ acc : ℚ × List (String × ℚ × String),
          (if keywords.any
                (fun kw => strContains (pyLower (pyStrip row.account_name)) (pyLower kw)) &&
              (exclude.isEmpty ||
                !exclude.any
                  (fun e => strContains (pyLower (pyStrip row.account_name)) (pyLower e))) then
            (acc.1 + clean_value row.amount,
              acc.2 ++ [(row.account_name, clean_value row.amount, row.group)])
          else acc) = acc := by
      intro acc
      rw [hany, hne]
      simp
    rw [hstep]
  · intro l1 l2 a kws groups excl _ h2
    obtain ⟨ex, hexmem, hexc⟩ := h2
    have hany : excl.any (fun w => strContains (pyLower a.account_name) (pyLower w)) = true :=
      List.any_eq_true.mpr ⟨ex, hexmem, hexc⟩
    rw [classify_accounts_by_note, classify_accounts_by_note, List.filter_append,
      List.filter_append, List.filter_cons]
    simp only [hany, if_true, if_false, Bool.false_eq_true]

/-- Witness for C7: a long-term-advances rule with keyword `advances` and
exclude `short term` ignores the account `Short Term Advances` in both
note engines. -/
theorem c7_exclude_suppresses_rule_witness :
    calculate_note [⟨"Short Term Advances", "100", "Loans and Advances"⟩]
        ["advances"] ["short term"] =
      calculate_note [] ["advances"] ["short term"] ∧
    classify_accounts_by_note [⟨"Short Term Advances", "Loans and Advances"⟩]
        ["advances"] [] ["short term"] =
      classify_accounts_by_note [] ["advances"] [] ["short term"] :=
  ⟨c7_exclude_suppresses_rule.1 [] [] ⟨"Short Term Advances", "100", "Loans and Advances"⟩
      ["advances"] ["short term"]
      ⟨"advances", by simp, by decide⟩ ⟨"short term", by simp, by decide⟩,
    c7_exclude_suppresses_rule.2 [] [] ⟨"Short Term Advances", "Loans and Advances"⟩
      ["advances"] [] ["short term"]
      ⟨"advances", by simp, by decide⟩ ⟨"short term", by simp, by decide⟩⟩

/-- Claim C10: every record the extraction hands to the classifier has a
trimmed account name of at least three characters that is not purely
numeric once `.` and `-` are removed; and a row whose trimmed first cell
is too short or digit-like is skipped outright (it produces no record). -/
theorem c10_row_validation :
    ∀ (em : List (String × String)) (kr : List (String × List String))
      (sr : String → Option String) (ak : Bool) (llm : String → Option String)
      (src : String) (rows : List (List (Option String))),
      (∀ r ∈ extract_trial_balance_data em kr sr ak llm src rows,
        3 ≤ r.account_name.length ∧
          pyIsDigitStr (removeChars r.account_name ['.', '-']) = false) ∧
      ∀ (row : List (Option String)) (raw : String),
        row.head? = some (some raw) →
        ((pyStrip raw).length ≤ 2 ∨
          pyIsDigitStr (removeChars (pyStrip raw) ['.', '-']) = true) →
        processRow em kr sr ak llm src row = none := by
  intro em kr sr ak llm src rows
  have hspec : ∀ (row : List (Option String)) (name : String),
      rowAccountName? row = some name →
      3 ≤ name.length ∧ pyIsDigitStr (removeChars name ['.', '-']) = false := by
    intro row name h
    cases row with
    | nil => simp [rowAccountName?] at h
    | cons cell rest =>
      cases cell with
      | none => simp [rowAccountName?] at h
      | some raw =>
        rw [rowAccountName?] at h
        by_cases h1 : pyStrip raw = ""
        · rw [if_pos h1] at h; simp at h
        · rw [if_neg h1] at h
          by_cases h2 :
              ((pyStrip raw).length ≤ 2 ∨
                pyIsDigitStr (removeChars (pyStrip raw) ['.', '-']) = true)
          · rw [if_pos (by simpa using h2)] at h
            simp at h
          · rw [if_neg (by simpa using h2)] at h
            push_neg at h2
            cases h
            exact ⟨by omega, by simpa using h2.2⟩
  constructor
  · intro r hr
    rw [extract_trial_balance_data] at hr
    obtain ⟨row, _, hpr⟩ := List.mem_filterMap.mp hr
    rw [processRow] at hpr
    rw [Option.map_eq_some'] at hpr
    obtain ⟨name, hn, hrec⟩ := hpr
    have := hspec row name hn
    rw [← hrec]
    exact this
  · intro row raw hh hcond
    have hrow : rowAccountName? row = none := by
      cases row with
      | nil => simp at hh
      | cons cell rest =>
        simp only [List.head?_cons, Option.some_inj] at hh
        subst hh
        rw [rowAccountName?]
        by_cases h1 : pyStrip raw = ""
        · rw [if_pos h1]
        · rw [if_neg h1, if_pos (by simpa using hcond)]
    rw [processRow, hrow]
    rfl

/-- Witness for C10: a valid three-character-plus name makes it through
as a record, while a purely numeric first cell and a two-character name
are both skipped. -/
theorem c10_row_validation_witness :
    (3 ≤ (String.length "Cash In Hand") ∧
      pyIsDigitStr (removeChars "Cash In Hand" ['.', '-']) = false) ∧
    processRow [] [] (fun _ => none) false (fun _ => none) "tb"
        [some "12.34", some "5", some "0"] = none ∧
    processRow [] [] (fun _ => none) false (fun _ => none) "tb"
        [some " ab ", some "5", some "0"] = none := by
  have h := c10_row_validation [] [] (fun _ => none) false (fun _ => none) "tb"
    [[some "Cash In Hand", some "5", some "0"]]
  refine ⟨?_, ?_, ?_⟩
  · have hmem :
        (⟨"Cash In Hand", "Unmapped",
            amountOfRow [some "Cash In Hand", some "5", some "0"], "Unmapped", "tb"⟩ :
          TBRecord) ∈
          extract_trial_balance_data [] [] (fun _ => none) false (fun _ => none) "tb"
            [[some "Cash In Hand", some "5", some "0"]] := by
      rw [extract_trial_balance_data]
      exact List.mem_filterMap.mpr ⟨[some "Cash In Hand", some "5", some "0"], by simp, rfl⟩
    exact h.1 _ hmem
  · exact h.2 [some "12.34", some "5", some "0"] "12.34" rfl (Or.inr (by decide))
  · exact h.2 [some " ab ", some "5", some "0"] " ab " rfl (Or.inl (by decide))

/-- Lookup in the empty category dictionary defaults to zero. -/
theorem getCat_nil (c : String) : getCat [] c = (0, 0) := rfl

/-- Lookup steps through one dictionary entry. -/
theorem getCat_cons (k : String) (v : ℚ × ℚ) (rest : List (String × ℚ × ℚ)) (c : String) :
    getCat ((k, v) :: rest) c = if k = c then v else getCat rest c := by
  by_cases h : k = c
  · simp [getCat, List.find?_cons_of_pos, h]
  · simp [getCat, List.find?_cons_of_neg, h]

/-- Inserting one item adds its values to exactly its own category. -/
theorem getCat_addItem (cats : List (String × ℚ × ℚ)) (it : BalanceSheetItem) (c : String) :
    getCat (addItemToCategories cats it) c =
      if it.category = c then
        ((getCat cats c).1 + it.value_2024, (getCat cats c).2 + it.value_2023)
      else getCat cats c := by
  induction cats with
  | nil =>
    by_cases hc : it.category = c
    · rw [addItemToCategories, getCat_cons, if_pos hc, if_pos hc, getCat_nil]
      simp
    · rw [addItemToCategories, getCat_cons, if_neg hc, if_neg hc]
  | cons p rest ih =>
    rcases p with ⟨k, v⟩
    rw [addItemToCategories]
    by_cases h1 : k = it.category
    · rw [if_pos h1]
      by_cases hc : it.category = c
      · have hkc : k = c := h1.trans hc
        rw [getCat_cons, if_pos hkc, if_pos hc, getCat_cons, if_pos hkc]
      · have hkc : ¬k = c := fun h => hc (h1.symm.trans h)
        rw [getCat_cons, if_neg hkc, if_neg hc, getCat_cons, if_neg hkc]
    · rw [if_neg h1]
      by_cases hkc : k = c
      · have hcne : ¬it.category = c := fun h => h1 (hkc.trans h.symm)
        rw [getCat_cons, if_pos hkc, if_neg hcne, getCat_cons, if_pos hkc]
      · rw [getCat_cons, if_neg hkc, ih, getCat_cons, if_neg hkc]

/-- Folding items into the dictionary accumulates exactly the per-category
sums. -/
theorem getCat_foldl (items : List BalanceSheetItem) (cats : List (String × ℚ × ℚ))
    (c : String) :
    getCat (items.foldl addItemToCategories cats) c =
      ((getCat cats c).1 + catSum24 items c, (getCat cats c).2 + catSum23 items c) := by
  induction items generalizing cats with
  | nil => simp [catSum24, catSum23]
  | cons it rest ih =>
    rw [List.foldl_cons, ih (addItemToCategories cats it), getCat_addItem]
    by_cases hc : it.category = c
    · rw [if_pos hc]
      have h24 : catSum24 (it :: rest) c = it.value_2024 + catSum24 rest c := by
        simp [catSum24, List.filter_cons, hc]
      have h23 : catSum23 (it :: rest) c = it.value_2023 + catSum23 rest c := by
        simp [catSum23, List.filter_cons, hc]
      rw [h24, h23]
      simp [add_assoc]
    · rw [if_neg hc]
      have h24 : catSum24 (it :: rest) c = catSum24 rest c := by
        simp [catSum24, List.filter_cons, hc]
      have h23 : catSum23 (it :: rest) c = catSum23 rest c := by
        simp [catSum23, List.filter_cons, hc]
      rw [h24, h23]

/-- Claim C2: aggregation is consistent — every category entry of the
dictionary equals the sum of the values of the items of that category
(for both periods), each named section total is such a category sum, and
the two grand totals are the sums of their section totals, for both
periods. -/
theorem c2_aggregation_consistency :
    ∀ items : List BalanceSheetItem,
      (∀ c : String, getCat (categoriesOf items) c = (catSum24 items c, catSum23 items c)) ∧
      (calculate_totals items).shareholders_funds_2024 = catSum24 items catShareholdersFunds ∧
      (calculate_totals items).shareholders_funds_2023 = catSum23 items catShareholdersFunds ∧
      (calculate_totals items).share_application_money_2024 =
        catSum24 items catShareApplication ∧
      (calculate_totals items).share_application_money_2023 =
        catSum23 items catShareApplication ∧
      (calculate_totals items).non_current_liabilities_2024 =
        catSum24 items catNonCurrentLiabilities ∧
      (calculate_totals items).non_current_liabilities_2023 =
        catSum23 items catNonCurrentLiabilities ∧
      (calculate_totals items).current_liabilities_2024 =
        catSum24 items catCurrentLiabilities ∧
      (calculate_totals items).current_liabilities_2023 =
        catSum23 items catCurrentLiabilities ∧
      (calculate_totals items).non_current_assets_2024 = catSum24 items catNonCurrentAssets ∧
      (calculate_totals items).non_current_assets_2023 = catSum23 items catNonCurrentAssets ∧
      (calculate_totals items).current_assets_2024 = catSum24 items catCurrentAssets ∧
      (calculate_totals items).current_assets_2023 = catSum23 items catCurrentAssets ∧
      (calculate_totals items).total_equity_liabilities_2024 =
        (calculate_totals items).shareholders_funds_2024 +
          (calculate_totals items).share_application_money_2024 +
          (calculate_totals items).non_current_liabilities_2024 +
          (calculate_totals items).current_liabilities_2024 ∧
      (calculate_totals items).total_equity_liabilities_2023 =
        (calculate_totals items).shareholders_funds_2023 +
          (calculate_totals items).share_application_money_2023 +
          (calculate_totals items).non_current_liabilities_2023 +
          (calculate_totals items).current_liabilities_2023 ∧
      (calculate_totals items).total_assets_2024 =
        (calculate_totals items).non_current_assets_2024 +
          (calculate_totals items).current_assets_2024 ∧
      (calculate_totals items).total_assets_2023 =
        (calculate_totals items).non_current_assets_2023 +
          (calculate_totals items).current_assets_2023 := by
  intro items
  have hall : ∀ c, getCat (categoriesOf items) c = (catSum24 items c, catSum23 items c) := by
    intro c
    have h := getCat_foldl items [] c
    rw [getCat_nil] at h
    simpa [categoriesOf] using h
  refine ⟨hall, ?_, ?_, ?_, ?_, ?_, ?_, ?_, ?_, ?_, ?_, ?_, ?_, ?_, ?_, ?_, ?_⟩ <;>
    simp [calculate_totals, hall]

/-- Claim C1 (counterexample): the reported difference is the absolute
value, not the signed difference.  With only a 6.10 current liability
the code reports `6.10` while `total_assets - total_equity_liabilities`
is `-6.10`; with only a 6.10 current asset it likewise differs from the
opposite signed reading. -/
theorem c1_signed_difference_counterexample :
    ((calculate_totals [⟨catCurrentLiabilities, "", "", "", 6.10, 0⟩]).balance_difference_2024 ≠
      (calculate_totals [⟨catCurrentLiabilities, "", "", "", 6.10, 0⟩]).total_assets_2024 -
        (calculate_totals
            [⟨catCurrentLiabilities, "", "", "", 6.10, 0⟩]).total_equity_liabilities_2024) ∧
    (calculate_totals [⟨catCurrentAssets, "", "", "", 6.10, 0⟩]).balance_difference_2024 ≠
      (calculate_totals
          [⟨catCurrentAssets, "", "", "", 6.10, 0⟩]).total_equity_liabilities_2024 -
        (calculate_totals [⟨catCurrentAssets, "", "", "", 6.10, 0⟩]).total_assets_2024 := by
  constructor
  · have h1 : categoriesOf [⟨catCurrentLiabilities, "", "", "", (6.10 : ℚ), (0 : ℚ)⟩] =
        [(catCurrentLiabilities, ((6.10 : ℚ), (0 : ℚ)))] := rfl
    simp only [calculate_totals, h1,
      show getCat [(catCurrentLiabilities, ((6.10 : ℚ), (0 : ℚ)))] catShareholdersFunds =
        ((0 : ℚ), (0 : ℚ)) from rfl,
      show getCat [(catCurrentLiabilities, ((6.10 : ℚ), (0 : ℚ)))] catShareApplication =
        ((0 : ℚ), (0 : ℚ)) from rfl,
      show getCat [(catCurrentLiabilities, ((6.10 : ℚ), (0 : ℚ)))] catNonCurrentLiabilities =
        ((0 : ℚ), (0 : ℚ)) from rfl,
      show getCat [(catCurrentLiabilities, ((6.10 : ℚ), (0 : ℚ)))] catCurrentLiabilities =
        ((6.10 : ℚ), (0 : ℚ)) from rfl,
      show getCat [(catCurrentLiabilities, ((6.10 : ℚ), (0 : ℚ)))] catNonCurrentAssets =
        ((0 : ℚ), (0 : ℚ)) from rfl,
      show getCat [(catCurrentLiabilities, ((6.10 : ℚ), (0 : ℚ)))] catCurrentAssets =
        ((0 : ℚ), (0 : ℚ)) from rfl]
    norm_num [pyAbs]
  · have h1 : categoriesOf [⟨catCurrentAssets, "", "", "", (6.10 : ℚ), (0 : ℚ)⟩] =
        [(catCurrentAssets, ((6.10 : ℚ), (0 : ℚ)))] := rfl
    simp only [calculate_totals, h1,
      show getCat [(catCurrentAssets, ((6.10 : ℚ), (0 : ℚ)))] catShareholdersFunds =
        ((0 : ℚ), (0 : ℚ)) from rfl,
      show getCat [(catCurrentAssets, ((6.10 : ℚ), (0 : ℚ)))] catShareApplication =
        ((0 : ℚ), (0 : ℚ)) from rfl,
      show getCat [(catCurrentAssets, ((6.10 : ℚ), (0 : ℚ)))] catNonCurrentLiabilities =
        ((0 : ℚ), (0 : ℚ)) from rfl,
      show getCat [(catCurrentAssets, ((6.10 : ℚ), (0 : ℚ)))] catCurrentLiabilities =
        ((0 : ℚ), (0 : ℚ)) from rfl,
      show getCat [(catCurrentAssets, ((6.10 : ℚ), (0 : ℚ)))] catNonCurrentAssets =
        ((0 : ℚ), (0 : ℚ)) from rfl,
      show getCat [(catCurrentAssets, ((6.10 : ℚ), (0 : ℚ)))] catCurrentAssets =
        ((6.10 : ℚ), (0 : ℚ)) from rfl]
    norm_num [pyAbs]

/-- Claim C1 (amended): the balance validator reports
`difference = abs(total_assets - total_equity_liabilities)` and
`balanced = (difference < 0.01)` with the tolerance fixed at `0.01`; at
the spec instances, equal totals of 5246.10 give difference `0.0` and
balanced, and totals 5246.10 versus 5240.00 give difference `6.10` and
not balanced. -/
theorem c1_balance_validator_abs :
    (∀ items : List BalanceSheetItem,
        (calculate_totals items).balance_difference_2024 =
          pyAbs ((calculate_totals items).total_assets_2024 -
              (calculate_totals items).total_equity_liabilities_2024) ∧
        (calculate_totals items).balance_difference_2023 =
          pyAbs ((calculate_totals items).total_assets_2023 -
              (calculate_totals items).total_equity_liabilities_2023) ∧
        (is_balanced_2024 (calculate_totals items) ↔
          (calculate_totals items).balance_difference_2024 < 0.01) ∧
        (is_balanced_2023 (calculate_totals items) ↔
          (calculate_totals items).balance_difference_2023 < 0.01)) ∧
    (calculate_totals [⟨catCurrentAssets, "", "", "", 5246.10, 0⟩,
        ⟨catCurrentLiabilities, "", "", "", 5246.10, 0⟩]).total_assets_2024 = 5246.10 ∧
    (calculate_totals [⟨catCurrentAssets, "", "", "", 5246.10, 0⟩,
        ⟨catCurrentLiabilities, "", "", "", 5246.10, 0⟩]).total_equity_liabilities_2024 =
      5246.10 ∧
    (calculate_totals [⟨catCurrentAssets, "", "", "", 5246.10, 0⟩,
        ⟨catCurrentLiabilities, "", "", "", 5246.10, 0⟩]).balance_difference_2024 = 0 ∧
    is_balanced_2024 (calculate_totals [⟨catCurrentAssets, "", "", "", 5246.10, 0⟩,
        ⟨catCurrentLiabilities, "", "", "", 5246.10, 0⟩]) ∧
    (calculate_totals [⟨catCurrentAssets, "", "", "", 5246.10, 0⟩,
        ⟨catCurrentLiabilities, "", "", "", 5240.00, 0⟩]).total_assets_2024 = 5246.10 ∧
    (calculate_totals [⟨catCurrentAssets, "", "", "", 5246.10, 0⟩,
        ⟨catCurrentLiabilities, "", "", "", 5240.00, 0⟩]).total_equity_liabilities_2024 =
      5240.00 ∧
    (calculate_totals [⟨catCurrentAssets, "", "", "", 5246.10, 0⟩,
        ⟨catCurrentLiabilities, "", "", "", 5240.00, 0⟩]).balance_difference_2024 = 6.10 ∧
    ¬is_balanced_2024 (calculate_totals [⟨catCurrentAssets, "", "", "", 5246.10, 0⟩,
        ⟨catCurrentLiabilities, "", "", "", 5240.00, 0⟩]) := by
  have hEq : categoriesOf [⟨catCurrentAssets, "", "", "", (5246.10 : ℚ), (0 : ℚ)⟩,
      ⟨catCurrentLiabilities, "", "", "", (5246.10 : ℚ), (0 : ℚ)⟩] =
      [(catCurrentAssets, ((5246.10 : ℚ), (0 : ℚ))),
        (catCurrentLiabilities, ((5246.10 : ℚ), (0 : ℚ)))] := rfl
  have hNe : categoriesOf [⟨catCurrentAssets, "", "", "", (5246.10 : ℚ), (0 : ℚ)⟩,
      ⟨catCurrentLiabilities, "", "", "", (5240.00 : ℚ), (0 : ℚ)⟩] =
      [(catCurrentAssets, ((5246.10 : ℚ), (0 : ℚ))),
        (catCurrentLiabilities, ((5240.00 : ℚ), (0 : ℚ)))] := rfl
  have gEq : ∀ v : ℚ,
      getCat [(catCurrentAssets, ((5246.10 : ℚ), (0 : ℚ))),
          (catCurrentLiabilities, (v, (0 : ℚ)))] catShareholdersFunds = (0, 0) ∧
      getCat [(catCurrentAssets, ((5246.10 : ℚ), (0 : ℚ))),
          (catCurrentLiabilities, (v, (0 : ℚ)))] catShareApplication = (0, 0) ∧
      getCat [(catCurrentAssets, ((5246.10 : ℚ), (0 : ℚ))),
          (catCurrentLiabilities, (v, (0 : ℚ)))] catNonCurrentLiabilities = (0, 0) ∧
      getCat [(catCurrentAssets, ((5246.10 : ℚ), (0 : ℚ))),
          (catCurrentLiabilities, (v, (0 : ℚ)))] catCurrentLiabilities = (v, 0) ∧
      getCat [(catCurrentAssets, ((5246.10 : ℚ), (0 : ℚ))),
          (catCurrentLiabilities, (v, (0 : ℚ)))] catNonCurrentAssets = (0, 0) ∧
      getCat [(catCurrentAssets, ((5246.10 : ℚ), (0 : ℚ))),
          (catCurrentLiabilities, (v, (0 : ℚ)))] catCurrentAssets = (5246.10, 0) :=
    fun _ => ⟨rfl, rfl, rfl, rfl, rfl, rfl⟩
  obtain ⟨e1, e2, e3, e4, e5, e6⟩ := gEq (5246.10 : ℚ)
  obtain ⟨n1, n2, n3, n4, n5, n6⟩ := gEq (5240.00 : ℚ)
  refine ⟨fun items => ⟨rfl, rfl, Iff.rfl, Iff.rfl⟩, ?_, ?_, ?_, ?_, ?_, ?_, ?_, ?_⟩
  · simp only [calculate_totals, hEq, e1, e2, e3, e4, e5, e6]
    norm_num
  · simp only [calculate_totals, hEq, e1, e2, e3, e4, e5, e6]
    norm_num
  · simp only [calculate_totals, hEq, e1, e2, e3, e4, e5, e6]
    norm_num [pyAbs]
  · simp only [is_balanced_2024, calculate_totals, hEq, e1, e2, e3, e4, e5, e6]
    norm_num [pyAbs]
  · simp only [calculate_totals, hNe, n1, n2, n3, n4, n5, n6]
    norm_num
  · simp only [calculate_totals, hNe, n1, n2, n3, n4, n5, n6]
    norm_num
  · simp only [calculate_totals, hNe, n1, n2, n3, n4, n5, n6]
    norm_num [pyAbs]
  · simp only [is_balanced_2024, calculate_totals, hNe, n1, n2, n3, n4, n5, n6]
    norm_num [pyAbs]
